import Mathlib

/-!
Verification of the question/topic dashboard (v2.0.0) against its
natural-language specification.

The development shallowly embeds the parsing, statistics and merging logic of
`app.py`, `pages/Cost_and_Performance.py` and `pages/Feedback_and_Satisfaction.py`.
Python floats are modelled by exact rationals (`Rat`); machine floating point is
outside the embedding.  Fallible Python code is embedded in `Except`/`Option`.
-/

namespace Dashboard

/-- Python-ish runtime values that flow through the dashboard's parsing helpers:
`None`/`NaN`, booleans, ints, floats (as rationals), strings, lists and dicts. -/
inductive PyVal where
  | none
  | bool (b : Bool)
  | int (n : Int)
  | rat (q : Rat)
  | str (s : String)
  | list (xs : List PyVal)
  | dict (fields : List (String × PyVal))

/-- Skip JSON whitespace characters. -/
def skipWs : List Char → List Char
  | [] => []
  | c :: cs =>
    if c = ' ' || c = '\t' || c = '\n' || c = '\r' then skipWs cs else c :: cs

/-- Take a maximal run of ASCII digits. -/
def takeDigits : List Char → List Char × List Char
  | [] => ([], [])
  | c :: cs =>
    if c.isDigit then
      let p := takeDigits cs
      (c :: p.1, p.2)
    else ([], c :: cs)

/-- Decimal digits to a natural number. -/
def digitsToNat (acc : Nat) : List Char → Nat
  | [] => acc
  | c :: cs => digitsToNat (acc * 10 + (c.toNat - 48)) cs

/-- Decode a JSON escape character (the common single-character escapes;
`\uXXXX` is not modelled and is treated as a decode error). -/
def escChar (e : Char) : Option Char :=
  if e = '"' then some '"'
  else if e = '\\' then some '\\'
  else if e = '/' then some '/'
  else if e = 'n' then some '\n'
  else if e = 't' then some '\t'
  else if e = 'r' then some '\r'
  else Option.none

/-- Parse the body of a JSON string literal (after the opening quote),
returning the content and the remaining input after the closing quote. -/
def jsonStringChars : List Char → Option (List Char × List Char)
  | [] => Option.none
  | '"' :: cs => some ([], cs)
  | '\\' :: e :: cs =>
    (escChar e).bind fun ec =>
      (jsonStringChars cs).map fun p => (ec :: p.1, p.2)
  | '\\' :: [] => Option.none
  | c :: cs => (jsonStringChars cs).map fun p => (c :: p.1, p.2)

/-- Parse an optional JSON exponent part; returns the exponent (0 when absent). -/
def jsonExpPart : List Char → Option (Int × List Char)
  | c :: cs =>
    if c = 'e' || c = 'E' then
      let sgn : Bool × List Char :=
        match cs with
        | '-' :: t => (true, t)
        | '+' :: t => (false, t)
        | t => (false, t)
      let ds := takeDigits sgn.2
      if ds.1.isEmpty then Option.none
      else
        let m : Int := Int.ofNat (digitsToNat 0 ds.1)
        some (if sgn.1 then -m else m, ds.2)
    else some (0, c :: cs)
  | [] => some (0, [])

/-- Scale a rational by a power of ten (for JSON exponents). -/
def scalePow10 (q : Rat) (e : Int) : Rat :=
  if 0 ≤ e then q * (10 : Rat) ^ e.toNat else q / (10 : Rat) ^ (-e).toNat

/-- Parse a JSON number.  Integer literals decode to Python ints, literals with
a fraction or exponent to Python floats (modelled exactly as rationals). -/
def jsonNumber (cs : List Char) : Option (PyVal × List Char) :=
  let sgn : Bool × List Char :=
    match cs with
    | '-' :: t => (true, t)
    | t => (false, t)
  let ip := takeDigits sgn.2
  if ip.1.isEmpty then Option.none
  else if ip.1.length > 1 && ip.1.head? = some '0' then Option.none
  else
    let whole : Nat := digitsToNat 0 ip.1
    match ip.2 with
    | '.' :: cs3 =>
      let fp := takeDigits cs3
      if fp.1.isEmpty then Option.none
      else
        let base : Rat :=
          (whole : Rat) + (digitsToNat 0 fp.1 : Rat) / (10 : Rat) ^ fp.1.length
        (jsonExpPart fp.2).map fun pe =>
          let q := scalePow10 base pe.1
          (PyVal.rat (if sgn.1 then -q else q), pe.2)
    | rest =>
      match jsonExpPart rest with
      | some (e, rest2) =>
        if e = 0 ∧ rest = rest2 then
          some (PyVal.int (if sgn.1 then -(whole : Int) else (whole : Int)), rest)
        else
          let q := scalePow10 (whole : Rat) e
          some (PyVal.rat (if sgn.1 then -q else q), rest2)
      | Option.none => Option.none

mutual

/-- Parse one JSON value (fuel-bounded recursive descent). -/
def jsonVal : Nat → List Char → Option (PyVal × List Char)
  | 0, _ => Option.none
  | fuel + 1, cs =>
    match skipWs cs with
    | [] => Option.none
    | c :: rest =>
      if c = '\x7b' then jsonMembers fuel rest
      else if c = '[' then jsonItems fuel rest
      else if c = '"' then
        (jsonStringChars rest).map fun p => (PyVal.str (String.mk p.1), p.2)
      else if c = 'n' then
        match rest with
        | 'u' :: 'l' :: 'l' :: r => some (PyVal.none, r)
        | _ => Option.none
      else if c = 't' then
        match rest with
        | 'r' :: 'u' :: 'e' :: r => some (PyVal.bool true, r)
        | _ => Option.none
      else if c = 'f' then
        match rest with
        | 'a' :: 'l' :: 's' :: 'e' :: r => some (PyVal.bool false, r)
        | _ => Option.none
      else jsonNumber (c :: rest)

/-- Parse the items of a JSON array, starting just after `[`. -/
def jsonItems : Nat → List Char → Option (PyVal × List Char)
  | 0, _ => Option.none
  | fuel + 1, cs =>
    match skipWs cs with
    | ']' :: rest => some (PyVal.list [], rest)
    | cs2 => jsonItemsRest fuel cs2

/-- Parse one array item then `,` more items or `]`. -/
def jsonItemsRest : Nat → List Char → Option (PyVal × List Char)
  | 0, _ => Option.none
  | fuel + 1, cs => do
    let (v, r1) ← jsonVal fuel cs
    match skipWs r1 with
    | ',' :: r2 =>
      match ← jsonItemsRest fuel r2 with
      | (PyVal.list vs, r3) => some (PyVal.list (v :: vs), r3)
      | _ => Option.none
    | ']' :: r2 => some (PyVal.list [v], r2)
    | _ => Option.none

/-- Parse the members of a JSON object, starting just after the open brace. -/
def jsonMembers : Nat → List Char → Option (PyVal × List Char)
  | 0, _ => Option.none
  | fuel + 1, cs =>
    match skipWs cs with
    | '\x7d' :: rest => some (PyVal.dict [], rest)
    | cs2 => jsonMembersRest fuel cs2

/-- Parse one `"key": value` member then `,` more members or a close brace. -/
def jsonMembersRest : Nat → List Char → Option (PyVal × List Char)
  | 0, _ => Option.none
  | fuel + 1, cs => do
    match skipWs cs with
    | '"' :: cs1 =>
      let (kcs, r1) ← jsonStringChars cs1
      match skipWs r1 with
      | ':' :: r2 =>
        let (v, r3) ← jsonVal fuel r2
        match skipWs r3 with
        | ',' :: r4 =>
          match ← jsonMembersRest fuel r4 with
          | (PyVal.dict ms, r5) => some (PyVal.dict ((String.mk kcs, v) :: ms), r5)
          | _ => Option.none
        | '\x7d' :: r4 => some (PyVal.dict [(String.mk kcs, v)], r4)
        | _ => Option.none
      | _ => Option.none
    | _ => Option.none

end

/-- Model of Python `json.loads`: decode the whole string (allowing surrounding
whitespace) or report a decode error as `Option.none`. -/
def json_loads (s : String) : Option PyVal :=
  match jsonVal (2 * s.length + 4) s.data with
  | some (v, rest) => if (skipWs rest).isEmpty then some v else Option.none
  | Option.none => Option.none

/-- Model of `pd.isna` on a scalar: `None`/`NaN` are missing, everything else is not
(lists are handled separately since `pd.isna` is elementwise on them). -/
def pd_isna_scalar : PyVal → Bool
  | PyVal.none => true
  | _ => false

/-- Truth test of `pd.isna(v)` as it occurs in `if pd.isna(v) or ...`:
on a scalar `pd.isna` yields a bool; on a list it yields an elementwise boolean
array, whose truth value is the sole element for a one-element array and raises
`ValueError` (ambiguous truth value) otherwise. -/
def isnaTruth : PyVal → Except String Bool
  | PyVal.list [x] => Except.ok (pd_isna_scalar x)
  | PyVal.list _ =>
    Except.error "ValueError: The truth value of an array is ambiguous"
  | v => Except.ok (pd_isna_scalar v)

/-- Is this character default-stripped by Python `str.strip()`? -/
def isPyWs (c : Char) : Bool :=
  c = ' ' || c = '\t' || c = '\n' || c = '\r' || c = '\x0b' || c = '\x0c'

/-- Drop leading whitespace. -/
def dropWsLeft : List Char → List Char
  | [] => []
  | c :: cs => if isPyWs c then dropWsLeft cs else c :: cs

/-- Python `str.strip()`: drop leading and trailing whitespace. -/
def pyStrip (cs : List Char) : List Char :=
  ((dropWsLeft ((dropWsLeft cs).reverse)).reverse)

/-- Python `str.split(',')`: split on every comma, keeping empty parts. -/
def splitComma : List Char → List (List Char)
  | [] => [[]]
  | c :: rest =>
    let r := splitComma rest
    if c = ',' then [] :: r
    else
      match r with
      | h :: t => (c :: h) :: t
      | [] => [[c]]

/-- Is `v` the Python string `s`? (embeds `v == 'literal'`). -/
def eqStr : PyVal → String → Bool
  | PyVal.str t, s => t = s
  | _, _ => false

/-- Embedding of `parse_scores` (Feedback_and_Satisfaction.py lines 27-38):
empty/missing markers give `[]`, an actual list is returned as is, a string is
`json.loads`-decoded with decode errors recovered as `[]`, anything else is `[]`.
The `pd.isna` truth test may raise, which surfaces as `Except.error`. -/
def parse_scores (v : PyVal) : Except String PyVal :=
  match isnaTruth v with
  | Except.error e => Except.error e
  | Except.ok b =>
    if b || eqStr v "" || eqStr v "[]" then Except.ok (PyVal.list [])
    else
      match v with
      | PyVal.list xs => Except.ok (PyVal.list xs)
      | PyVal.str s =>
        match json_loads s with
        | some j => Except.ok j
        | Option.none => Except.ok (PyVal.list [])
      | _ => Except.ok (PyVal.list [])

/-- Embedding of `parse_tags` (Feedback_and_Satisfaction.py lines 41-52): like
`parse_scores` except that a string failing JSON decoding falls back to a
comma split, stripping whitespace and dropping empty parts. -/
def parse_tags (v : PyVal) : Except String PyVal :=
  match isnaTruth v with
  | Except.error e => Except.error e
  | Except.ok b =>
    if b || eqStr v "" || eqStr v "[]" then Except.ok (PyVal.list [])
    else
      match v with
      | PyVal.list xs => Except.ok (PyVal.list xs)
      | PyVal.str s =>
        match json_loads s with
        | some j => Except.ok j
        | Option.none =>
          Except.ok (PyVal.list
            ((((splitComma s.data).map pyStrip).filter (fun t => !t.isEmpty))
              |>.map (fun t => PyVal.str (String.mk t))))
      | _ => Except.ok (PyVal.list [])

/-- Theme initialization (app.py lines 29-31, and the page module preludes):
a session without a theme gets `'light'`; an existing theme is kept. -/
def init_theme : Option String → String
  | Option.none => "light"
  | some t => t

/-- The sidebar theme toggle (app.py lines 140-144): the current theme is read
with default `'light'`; the next theme is `'dark'` exactly when the current
one is `'light'`, and `'light'` otherwise. -/
def toggle_theme (state : Option String) : String :=
  if init_theme state = "light" then "dark" else "light"

/-- Embedding of `df[df[c] > 0][c]`: the positive entries of a numeric series. -/
def positives (xs : List Rat) : List Rat :=
  xs.filter (fun x => decide (0 < x))

/-- pandas `Series.mean`: `Option.none` models the NaN that pandas returns for
an empty selection. -/
def meanQ : List Rat → Option Rat
  | [] => Option.none
  | xs => some (xs.sum / (xs.length : Rat))

/-- The three scalar cost/latency metrics of Cost_and_Performance.py
lines 62-88: total cost (`Series.sum`), average cost over the positive cost
entries (NaN when there are none, rendered "N/A"), and average latency over
the positive latency entries (0 when there are none). -/
def cost_kpis (costs lats : List Rat) : Rat × Option Rat × Rat :=
  (costs.sum,
   meanQ (positives costs),
   match positives lats with
   | [] => 0
   | nz => nz.sum / (nz.length : Rat))

/-- Ascending sorted copy of a series, as pandas quantile/median computations
use internally. -/
def sortedQ (xs : List Rat) : List Rat :=
  List.insertionSort (· ≤ ·) xs

/-- pandas `Series.quantile(q)` with the default linear interpolation, for the
cut points `0 ≤ q ≤ 1` used by the pages: with `n` values and virtual index
`h = (n-1)·q`, the result interpolates between the order statistics at
positions `⌊h⌋₊` and `⌈h⌉₊` of the sorted series. -/
def quantile (xs : List Rat) (q : Rat) : Rat :=
  let s := sortedQ xs
  let h : Rat := ((xs.length : Rat) - 1) * q
  let lo := s.getD ⌊h⌋₊ 0
  let hi := s.getD ⌈h⌉₊ 0
  lo + (h - (⌊h⌋₊ : Rat)) * (hi - lo)

/-- pandas `Series.median`: the middle order statistic, or the mean of the two
middle order statistics for an even-length series (0 for an empty series,
where pandas yields NaN). -/
def median (xs : List Rat) : Rat :=
  let s := sortedQ xs
  let n := xs.length
  if n % 2 = 1 then s.getD (n / 2) 0
  else (s.getD (n / 2 - 1) 0 + s.getD (n / 2) 0) / 2

/-- The specification's wording of the linear-interpolation quantile, stated
independently of `quantile`: writing `h = (n-1)·q` as `i + g` with `i = ⌊h⌋₊`
and fractional part `g`, the quantile is the weighted average
`(1-g)·x_i + g·x_(i+1)` of consecutive order statistics, the upper index
clamped to the last position. -/
def quantileSpec (xs : List Rat) (q : Rat) : Rat :=
  let s := sortedQ xs
  let h : Rat := ((xs.length : Rat) - 1) * q
  let i := ⌊h⌋₊
  let g := h - (⌊h⌋₊ : Rat)
  (1 - g) * s.getD i 0 + g * s.getD (min (i + 1) (xs.length - 1)) 0

/-- Linear interpolation between the order statistics of a sorted series at a
virtual index `h` — the common core of the two quantile formulations. -/
def interpAt (s : List Rat) (h : Rat) : Rat :=
  s.getD ⌊h⌋₊ 0 + (h - (⌊h⌋₊ : Rat)) * (s.getD ⌈h⌉₊ 0 - s.getD ⌊h⌋₊ 0)

/-- The four latency percentile readouts of Cost_and_Performance.py
(lines 266-268 and 291-302): P50 is `Series.median`, P90/P95/P99 are
`Series.quantile(0.90/0.95/0.99)`. -/
def latency_percentiles (lat : List Rat) : Rat × Rat × Rat × Rat :=
  (median lat, quantile lat (9/10), quantile lat (19/20), quantile lat (99/100))

/-- A non-NaN Python float as `pd.to_numeric(..., errors='coerce')` produces
it: a finite value (kept exact) or one of the two infinities, which survive
`.dropna()` and are not caught by `pd.isna`. -/
inductive PyNum where
  | finite (q : Rat)
  | posInf
  | negInf
deriving DecidableEq

/-- Case-insensitive match of a character against a lowercase ASCII letter. -/
def eqLower (c target : Char) : Bool :=
  c == target || c.toNat + 32 == target.toNat

/-- Is this (sign-stripped) character sequence a `float()` infinity literal
(`inf` or `infinity`, any case)? -/
def isInfChars : List Char → Bool
  | [a, b, c] => eqLower a 'i' && eqLower b 'n' && eqLower c 'f'
  | [a, b, c, d, e, f, g, h] =>
    eqLower a 'i' && eqLower b 'n' && eqLower c 'f' && eqLower d 'i' &&
      eqLower e 'n' && eqLower f 'i' && eqLower g 't' && eqLower h 'y'
  | _ => false

/-- Is this (sign-stripped) character sequence a `float()` NaN literal? -/
def isNanChars : List Char → Bool
  | [a, b, c] => eqLower a 'n' && eqLower b 'a' && eqLower c 'n'
  | _ => false

/-- The smallest magnitude at which `float()` string conversion overflows to
infinity: the IEEE-754 double round-to-nearest-even boundary
`2^1024 - 2^970` (ties round away from the largest finite double). -/
def overflowNat : Nat := 2 ^ 1024 - 2 ^ 970

/-- Does the decimal value `mant · 10^ex` reach the double overflow
threshold? -/
def overflowsTo (mant : Nat) (ex : Int) : Bool :=
  if 0 ≤ ex then overflowNat ≤ mant * 10 ^ ex.toNat
  else overflowNat * 10 ^ (-ex).toNat ≤ mant

/-- The exact rational value of the decimal `mant · 10^ex` with a sign. -/
def sciRat (neg : Bool) (mant : Nat) (ex : Int) : Rat :=
  let mag : Rat :=
    if 0 ≤ ex then ((mant * 10 ^ ex.toNat : Nat) : Rat)
    else (mant : Rat) / ((10 ^ (-ex).toNat : Nat) : Rat)
  if neg then -mag else mag

/-- Parse a numeric string the way `float()` / `pd.to_numeric` does: optional
surrounding whitespace and sign, then an `inf`/`infinity` literal, a `nan`
literal (coerced to NaN, i.e. `Option.none`), or decimal digits with optional
fraction and exponent.  A finite literal is kept exact; a literal at or above
the double overflow boundary becomes an infinity, as `float("1e400")` does. -/
def parseNumQ (s : String) : Option PyNum :=
  let cs := pyStrip s.data
  let sgn : Bool × List Char :=
    match cs with
    | '-' :: t => (true, t)
    | '+' :: t => (false, t)
    | t => (false, t)
  if isInfChars sgn.2 then some (if sgn.1 then PyNum.negInf else PyNum.posInf)
  else if isNanChars sgn.2 then Option.none
  else
    let ip := takeDigits sgn.2
    let fr : List Char × List Char :=
      match ip.2 with
      | '.' :: t => takeDigits t
      | t => ([], t)
    if ip.1.isEmpty && fr.1.isEmpty then Option.none
    else
      match jsonExpPart fr.2 with
      | some (e, []) =>
        let mant : Nat := digitsToNat 0 (ip.1 ++ fr.1)
        let ex : Int := e - fr.1.length
        if overflowsTo mant ex then
          some (if sgn.1 then PyNum.negInf else PyNum.posInf)
        else some (PyNum.finite (sciRat sgn.1 mant ex))
      | _ => Option.none

/-- Model of `pd.to_numeric(·, errors='coerce')` on one value: numbers and
booleans convert, numeric strings parse (possibly to an infinity), everything
else (and `None`/`NaN`) coerces to NaN, modelled as `Option.none` and later
dropped by `.dropna()`. -/
def to_numericQ : PyVal → Option PyNum
  | PyVal.int n => some (PyNum.finite (n : Rat))
  | PyVal.rat q => some (PyNum.finite q)
  | PyVal.bool b => some (PyNum.finite (if b then 1 else 0))
  | PyVal.str s => parseNumQ s
  | _ => Option.none

/-- Python `int()` on a finite real number: truncation toward zero. -/
def truncQ (q : Rat) : Int :=
  if 0 ≤ q then ⌊q⌋ else ⌈q⌉

/-- The larger of two coerced values (infinities compare as in IEEE). -/
def maxPyNum (a b : PyNum) : PyNum :=
  match a, b with
  | PyNum.posInf, _ => PyNum.posInf
  | _, PyNum.posInf => PyNum.posInf
  | PyNum.negInf, y => y
  | x, PyNum.negInf => x
  | PyNum.finite p, PyNum.finite q => PyNum.finite (max p q)

/-- pandas `Series.max` of a nonempty coerced series. -/
def maxN (x : PyNum) (xs : List PyNum) : PyNum :=
  xs.foldl maxPyNum x

/-- The `bins = int(max_value)` step and the clamps that follow it:
truncation then clamping for a finite maximum, and an OverflowError for an
infinite one — `int(inf)` raises OverflowError, which the source's
`except (TypeError, ValueError)` does not catch. -/
def intOfMax (m : PyNum) (max_bins : Int) : Except String Int :=
  match m with
  | PyNum.finite q =>
    let bins := truncQ q
    Except.ok (if bins < 1 then 1 else min max_bins bins)
  | _ => Except.error "OverflowError: cannot convert float infinity to integer"

/-- The tail of `safe_hist_bins` after `pd.to_numeric(...).dropna()`: the
default for an empty numeric series, otherwise `intOfMax` of the maximum. -/
def binsOf (numeric : List PyNum) (default max_bins : Int) : Except String Int :=
  match numeric with
  | [] => Except.ok default
  | x :: xs => intOfMax (maxN x xs) max_bins

/-- The amended claim's description of the `int(max)` step at the call-site
arguments: `min(30, int(max))` clamped below by 1 when the coerced maximum is
finite, and an uncaught OverflowError when it is an infinity. -/
def clampOfMax (m : PyNum) : Except String Int :=
  match m with
  | PyNum.finite q => Except.ok (max 1 (min 30 (truncQ q)))
  | _ => Except.error "OverflowError: cannot convert float infinity to integer"

/-- The amended claim's description of `safe_hist_bins` at the call-site
arguments (default 10, max 30): 10 when no numeric values remain, otherwise
`clampOfMax` of the coerced maximum. -/
def binsSpec (numeric : List PyNum) : Except String Int :=
  match numeric with
  | [] => Except.ok 10
  | x :: xs => clampOfMax (maxN x xs)

/-- Embedding of `safe_hist_bins` (Feedback_and_Satisfaction.py lines 55-76).
`Option.none` models passing `None` as the series.  The source's
`pd.isna(max_value)` guard cannot fire once `.dropna()` has left a nonempty
series (`pd.isna(inf)` is False); `int(max_value)` raises an uncaught
OverflowError when the maximum is an infinity, surfaced as `Except.error`. -/
def safe_hist_bins (series : Option (List PyVal)) (default max_bins : Int) :
    Except String Int :=
  match series with
  | Option.none => Except.ok default
  | some s =>
    if s.length = 0 then Except.ok default
    else binsOf (s.filterMap to_numericQ) default max_bins

/-! ### The data-loader layer (`utils/data_loader.py`), modelled from the spec

`merge_data_for_dashboard` and `calculate_kpis` are imported by `app.py` from
`utils/data_loader.py`, a file of this repository that is not part of the
sources here; they are modelled from the specification's contracts. -/

/-- One row of the primary questions dataset (spec §3, QuestionRecord). -/
structure QuestionRow where
  trace_id : String
  question_text : String
  topic_name : String
  timestamp : Int

/-- One row of the secondary cost/latency dataset. -/
structure CostRow where
  trace_id : String
  total_cost : Rat
  latency : Rat

/-- One row of the secondary feedback dataset. -/
structure FeedbackRow where
  trace_id : String
  scores : PyVal
  tags : PyVal
  session_id : Option String
  user_id : Option String

/-- One free-form general feedback submission (spec §3,
GeneralFeedbackRecord). -/
structure GFRow where
  feedback_text : String

/-- The mapping of raw per-dataset tables returned by the fetcher; a dataset
may be absent (`Option.none`). -/
structure RawData where
  questions : Option (List QuestionRow)
  costs : Option (List CostRow)
  feedback : Option (List FeedbackRow)
  general_feedback : Option (List GFRow)

/-- One row of the MergedTable: one row per question trace, optional columns
present but possibly null. -/
structure MergedRow where
  trace_id : String
  question_text : String
  topic_name : String
  timestamp : Int
  total_cost : Option Rat
  latency : Option Rat
  scores : Option PyVal
  tags : Option PyVal
  session_id : Option String
  user_id : Option String

/-- Modelled from the spec: `merge_data_for_dashboard` lives in
`utils/data_loader.py`, which is absent from the sources.  Per §4.2 it joins
the raw tables on the trace identifier, fails with a MergeError only when the
primary questions table is absent, and degrades absent secondary tables to
all-null optional columns instead of excluding rows. -/
def merge_data_for_dashboard (raw : RawData) : Except String (List MergedRow) :=
  match raw.questions with
  | Option.none => Except.error "MergeError: primary questions table is absent"
  | some qs =>
    Except.ok (qs.map fun q =>
      let c := (raw.costs.getD []).find? (fun r => r.trace_id == q.trace_id)
      let f := (raw.feedback.getD []).find? (fun r => r.trace_id == q.trace_id)
      { trace_id := q.trace_id
        question_text := q.question_text
        topic_name := q.topic_name
        timestamp := q.timestamp
        total_cost := c.map (fun r => r.total_cost)
        latency := c.map (fun r => r.latency)
        scores := f.map (fun r => r.scores)
        tags := f.map (fun r => r.tags)
        session_id := f.bind (fun r => r.session_id)
        user_id := f.bind (fun r => r.user_id) })

/-- The flat mapping of named scalar metrics (spec §3, KPISet).  `Option.none`
is the defined "not available" sentinel. -/
structure KPISet where
  total_questions : Nat
  total_cost : Rat
  avg_cost : Option Rat
  avg_latency : Option Rat
  p95_latency : Option Rat
  general_feedback_count : Nat

/-- Modelled from the spec: `calculate_kpis` lives in `utils/data_loader.py`,
which is absent from the sources.  Per §4.3 it is a pure function of the
MergedTable and the raw tables (the latter only for the general feedback
count), producing counts, sums, means and percentiles, with zero/NA values on
zero-row input. -/
def calculate_kpis (df : List MergedRow) (raw : RawData) : KPISet :=
  let costs := df.filterMap (fun r => r.total_cost)
  let lats := positives (df.filterMap (fun r => r.latency))
  { total_questions := df.length
    total_cost := costs.sum
    avg_cost := meanQ (positives costs)
    avg_latency := meanQ lats
    p95_latency :=
      match lats with
      | [] => Option.none
      | nz => some (quantile nz (19/20))
    general_feedback_count := (raw.general_feedback.getD []).length }

/-- Modelled from the spec: the KPI-calculation step as app.py line 92 runs
it, returning the computed KPISet together with the post-call state of its
inputs, which §4.3 requires to be unmodified (no side effects, no I/O). -/
def calculate_kpis_run (df : List MergedRow) (raw : RawData) :
    KPISet × List MergedRow × RawData :=
  (calculate_kpis df raw, df, raw)

/-! ### Order statistics and quantile lemmas -/

theorem length_sortedQ (xs : List Rat) : (sortedQ xs).length = xs.length :=
  List.length_insertionSort _ xs

theorem sorted_sortedQ (xs : List Rat) : List.Sorted (· ≤ ·) (sortedQ xs) :=
  List.sorted_insertionSort _ xs

/-- Reading a sorted list at a smaller in-range index gives a smaller value. -/
theorem getD_sorted_mono {s : List Rat} (hs : List.Sorted (· ≤ ·) s) {i j : Nat}
    (hij : i ≤ j) (hj : j < s.length) : s.getD i 0 ≤ s.getD j 0 := by
  have hi : i < s.length := lt_of_le_of_lt hij hj
  rw [List.getD_eq_getElem s 0 hi, List.getD_eq_getElem s 0 hj]
  exact hs.rel_get_of_le (a := ⟨i, hi⟩) (b := ⟨j, hj⟩) hij

theorem quantile_eq_interpAt (xs : List Rat) (q : Rat) :
    quantile xs q = interpAt (sortedQ xs) (((xs.length : Rat) - 1) * q) := rfl

/-- The interpolated value is at least the lower order statistic. -/
theorem interpAt_lower {s : List Rat} (hs : List.Sorted (· ≤ ·) s) {h : Rat}
    (h0 : 0 ≤ h) (hub : ⌈h⌉₊ < s.length) : s.getD ⌊h⌋₊ 0 ≤ interpAt s h := by
  have hlohi : s.getD ⌊h⌋₊ 0 ≤ s.getD ⌈h⌉₊ 0 :=
    getD_sorted_mono hs (Nat.floor_le_ceil h) hub
  have hg : 0 ≤ h - (⌊h⌋₊ : Rat) := sub_nonneg.mpr (Nat.floor_le h0)
  have hprod := mul_nonneg hg (sub_nonneg.mpr hlohi)
  unfold interpAt
  linarith

/-- The interpolated value is at most the upper order statistic. -/
theorem interpAt_upper {s : List Rat} (hs : List.Sorted (· ≤ ·) s) {h : Rat}
    (hub : ⌈h⌉₊ < s.length) : interpAt s h ≤ s.getD ⌈h⌉₊ 0 := by
  have hlohi : s.getD ⌊h⌋₊ 0 ≤ s.getD ⌈h⌉₊ 0 :=
    getD_sorted_mono hs (Nat.floor_le_ceil h) hub
  have hg1 : h - (⌊h⌋₊ : Rat) ≤ 1 := by
    have := Nat.lt_floor_add_one h
    linarith
  have hprod := mul_nonneg (by linarith : (0:Rat) ≤ 1 - (h - (⌊h⌋₊ : Rat)))
    (sub_nonneg.mpr hlohi)
  have hexp : (1 - (h - (⌊h⌋₊ : Rat))) * (s.getD ⌈h⌉₊ 0 - s.getD ⌊h⌋₊ 0) =
      s.getD ⌈h⌉₊ 0 - interpAt s h := by
    unfold interpAt
    ring
  linarith [hexp ▸ hprod]

/-- Linear interpolation into a sorted list is monotone in the virtual index. -/
theorem interpAt_mono {s : List Rat} (hs : List.Sorted (· ≤ ·) s) {h1 h2 : Rat}
    (h0 : 0 ≤ h1) (h12 : h1 ≤ h2) (hub : ⌈h2⌉₊ < s.length) :
    interpAt s h1 ≤ interpAt s h2 := by
  have h02 : 0 ≤ h2 := le_trans h0 h12
  have hub1 : ⌈h1⌉₊ < s.length := lt_of_le_of_lt (Nat.ceil_mono h12) hub
  by_cases hsame : ⌊h1⌋₊ = ⌊h2⌋₊ ∧ ⌈h1⌉₊ = ⌈h2⌉₊
  · obtain ⟨hfe, hce⟩ := hsame
    have hd : 0 ≤ s.getD ⌈h2⌉₊ 0 - s.getD ⌊h2⌋₊ 0 :=
      sub_nonneg.mpr (getD_sorted_mono hs (Nat.floor_le_ceil h2) hub)
    have hmul := mul_le_mul_of_nonneg_right
      (by linarith : h1 - (⌊h2⌋₊ : Rat) ≤ h2 - (⌊h2⌋₊ : Rat)) hd
    unfold interpAt
    rw [hfe, hce]
    linarith
  · have hkey : ⌈h1⌉₊ ≤ ⌊h2⌋₊ := by
      rcases Nat.lt_or_ge ⌊h1⌋₊ ⌊h2⌋₊ with hlt | hge
      · exact le_trans (Nat.ceil_le_floor_add_one h1) hlt
      · have hfe : ⌊h1⌋₊ = ⌊h2⌋₊ := le_antisymm (Nat.floor_mono h12) hge
        have hcne : ⌈h1⌉₊ ≠ ⌈h2⌉₊ := fun hc => hsame ⟨hfe, hc⟩
        have hclt : ⌈h1⌉₊ < ⌈h2⌉₊ := lt_of_le_of_ne (Nat.ceil_mono h12) hcne
        have hc2 := Nat.ceil_le_floor_add_one h2
        omega
    calc interpAt s h1 ≤ s.getD ⌈h1⌉₊ 0 := interpAt_upper hs hub1
      _ ≤ s.getD ⌊h2⌋₊ 0 :=
        getD_sorted_mono hs hkey (lt_of_le_of_lt (Nat.floor_le_ceil h2) hub)
      _ ≤ interpAt s h2 := interpAt_lower hs h02 hub

/-- The ceiling index of the virtual position `(n-1)·q` stays in range for
`0 ≤ q ≤ 1` on a nonempty series. -/
theorem ceil_pos_lt_length (xs : List Rat) (hne : xs ≠ []) {q : Rat}
    (_hq0 : 0 ≤ q) (hq1 : q ≤ 1) :
    ⌈((xs.length : Rat) - 1) * q⌉₊ < (sortedQ xs).length := by
  have hn : 0 < xs.length := List.length_pos.mpr hne
  have hn1 : (0:Rat) ≤ (xs.length : Rat) - 1 := by
    have : (1:Rat) ≤ (xs.length : Rat) := by exact_mod_cast hn
    linarith
  have hhub : ((xs.length : Rat) - 1) * q ≤ (xs.length : Rat) - 1 :=
    mul_le_of_le_one_right hn1 hq1
  have hceil : ⌈((xs.length : Rat) - 1) * q⌉₊ ≤ xs.length - 1 := by
    apply Nat.ceil_le.mpr
    rw [Nat.cast_sub hn]
    simpa using hhub
  rw [length_sortedQ]
  omega

/-- The quantile is monotone in the cut point on a nonempty series. -/
theorem quantile_mono (xs : List Rat) (hne : xs ≠ []) {q1 q2 : Rat}
    (hq0 : 0 ≤ q1) (hq12 : q1 ≤ q2) (hq2 : q2 ≤ 1) :
    quantile xs q1 ≤ quantile xs q2 := by
  have hn : 0 < xs.length := List.length_pos.mpr hne
  have hn1 : (0:Rat) ≤ (xs.length : Rat) - 1 := by
    have : (1:Rat) ≤ (xs.length : Rat) := by exact_mod_cast hn
    linarith
  rw [quantile_eq_interpAt, quantile_eq_interpAt]
  exact interpAt_mono (sorted_sortedQ xs) (mul_nonneg hn1 hq0)
    (mul_le_mul_of_nonneg_left hq12 hn1)
    (ceil_pos_lt_length xs hne (le_trans hq0 hq12) hq2)

/-- The median coincides with the linear-interpolation quantile at 0.5 on
a nonempty series. -/
theorem median_eq_quantile_half (xs : List Rat) (hne : xs ≠ []) :
    median xs = quantile xs (1/2) := by
  have hn : 0 < xs.length := List.length_pos.mpr hne
  rw [quantile_eq_interpAt]
  rcases Nat.even_or_odd xs.length with he | ho
  · obtain ⟨m, hm⟩ := he
    have hm1 : 1 ≤ m := by omega
    have hm1Q : (1:Rat) ≤ (m : Rat) := by exact_mod_cast hm1
    have hfl : ⌊(m : Rat) - 1/2⌋₊ = m - 1 := by
      rw [Nat.floor_eq_iff (by linarith)]
      rw [Nat.cast_sub hm1]
      push_cast
      constructor <;> linarith
    have hcl : ⌈(m : Rat) - 1/2⌉₊ = m := by
      rw [Nat.ceil_eq_iff (by omega)]
      rw [Nat.cast_sub hm1]
      push_cast
      constructor <;> linarith
    simp only [median]
    rw [hm]
    rw [if_neg (by omega)]
    have hdiv : (m + m) / 2 = m := by omega
    rw [hdiv]
    have hh : (((m + m : Nat) : Rat) - 1) * (1/2) = (m : Rat) - 1/2 := by
      push_cast
      ring
    rw [hh]
    unfold interpAt
    rw [hfl, hcl]
    rw [Nat.cast_sub hm1]
    push_cast
    ring
  · obtain ⟨m, hm⟩ := ho
    simp only [median]
    rw [hm]
    rw [if_pos (by omega)]
    have hdiv : (2 * m + 1) / 2 = m := by omega
    rw [hdiv]
    have hh : (((2 * m + 1 : Nat) : Rat) - 1) * (1/2) = (m : Rat) := by
      push_cast
      ring
    rw [hh]
    unfold interpAt
    rw [Nat.floor_natCast, Nat.ceil_natCast]
    ring

/-- Linear interpolation agrees with the spec's weighted-average formulation
with the upper index clamped to the last position. -/
theorem interpAt_eq_spec (s : List Rat) (nlen : Nat) (_hlen : s.length = nlen)
    {h : Rat} (h0 : 0 ≤ h) (hub : h ≤ (nlen : Rat) - 1) :
    interpAt s h = (1 - (h - (⌊h⌋₊ : Rat))) * s.getD ⌊h⌋₊ 0 +
      (h - (⌊h⌋₊ : Rat)) * s.getD (min (⌊h⌋₊ + 1) (nlen - 1)) 0 := by
  have hn1 : 1 ≤ nlen := by
    by_contra hc
    have h00 : nlen = 0 := by omega
    rw [h00] at hub
    norm_num at hub
    linarith
  by_cases hint : (⌊h⌋₊ : Rat) = h
  · unfold interpAt
    rw [hint]
    ring
  · have hfl : (⌊h⌋₊ : Rat) < h := lt_of_le_of_ne (Nat.floor_le h0) hint
    have hceil : ⌈h⌉₊ = ⌊h⌋₊ + 1 := by
      refine le_antisymm (Nat.ceil_le_floor_add_one h) ?_
      by_contra hc
      have hle : ⌈h⌉₊ ≤ ⌊h⌋₊ := by omega
      have h1 : (⌈h⌉₊ : Rat) ≤ (⌊h⌋₊ : Rat) := by exact_mod_cast hle
      have h2 : h ≤ (⌈h⌉₊ : Rat) := Nat.le_ceil h
      linarith
    have hlt : ⌊h⌋₊ < nlen - 1 := by
      have hq : (⌊h⌋₊ : Rat) < ((nlen - 1 : Nat) : Rat) := by
        rw [Nat.cast_sub hn1]
        push_cast
        linarith
      exact_mod_cast hq
    have hmin : min (⌊h⌋₊ + 1) (nlen - 1) = ⌊h⌋₊ + 1 := by omega
    unfold interpAt
    rw [hceil, hmin]
    ring

/-- The quantile equals the spec's formulation `quantileSpec` on a
nonempty series for cut points in [0, 1]. -/
theorem quantile_eq_quantileSpec (xs : List Rat) (hne : xs ≠ []) {q : Rat}
    (hq0 : 0 ≤ q) (hq1 : q ≤ 1) : quantile xs q = quantileSpec xs q := by
  have hn : 0 < xs.length := List.length_pos.mpr hne
  have hn1 : (0:Rat) ≤ (xs.length : Rat) - 1 := by
    have hc : (1:Rat) ≤ (xs.length : Rat) := by exact_mod_cast hn
    linarith
  rw [quantile_eq_interpAt]
  exact interpAt_eq_spec (sortedQ xs) xs.length (length_sortedQ xs)
    (mul_nonneg hn1 hq0) (mul_le_of_le_one_right hn1 hq1)

/-! ### Claim theorems: latency percentiles -/

/-- C4: for every non-empty numeric series, the rendered percentiles are
monotone in the cut point: P50 ≤ P90 ≤ P95 ≤ P99. -/
theorem latency_percentiles_monotone (lat : List Rat) (hne : lat ≠ []) :
    (latency_percentiles lat).1 ≤ (latency_percentiles lat).2.1 ∧
    (latency_percentiles lat).2.1 ≤ (latency_percentiles lat).2.2.1 ∧
    (latency_percentiles lat).2.2.1 ≤ (latency_percentiles lat).2.2.2 := by
  have hmed := median_eq_quantile_half lat hne
  simp only [latency_percentiles]
  rw [hmed]
  refine ⟨?_, ?_, ?_⟩ <;> apply quantile_mono lat hne <;> norm_num

/-- Witness for C4 on the concrete series [3, 1, 2]. -/
theorem latency_percentiles_monotone_witness :
    ([3, 1, 2] : List Rat) ≠ [] ∧
    ((latency_percentiles [3, 1, 2]).1 ≤ (latency_percentiles [3, 1, 2]).2.1 ∧
     (latency_percentiles [3, 1, 2]).2.1 ≤ (latency_percentiles [3, 1, 2]).2.2.1 ∧
     (latency_percentiles [3, 1, 2]).2.2.1 ≤ (latency_percentiles [3, 1, 2]).2.2.2) :=
  ⟨by decide, latency_percentiles_monotone [3, 1, 2] (by decide)⟩

/-- C8: every percentile the page renders — P50 via `median`, P90/P95/P99 via
`quantile` — equals the linear-interpolation quantile of the spec's definition
at the fixed cut points. -/
theorem latency_percentiles_linear_interpolation (lat : List Rat) (hne : lat ≠ []) :
    latency_percentiles lat =
      (quantileSpec lat (1/2), quantileSpec lat (9/10),
       quantileSpec lat (19/20), quantileSpec lat (99/100)) := by
  have hmed := median_eq_quantile_half lat hne
  simp only [latency_percentiles, Prod.mk.injEq]
  refine ⟨?_, ?_, ?_, ?_⟩
  · rw [hmed]
    exact quantile_eq_quantileSpec lat hne (by norm_num) (by norm_num)
  · exact quantile_eq_quantileSpec lat hne (by norm_num) (by norm_num)
  · exact quantile_eq_quantileSpec lat hne (by norm_num) (by norm_num)
  · exact quantile_eq_quantileSpec lat hne (by norm_num) (by norm_num)

/-- Witness for C8 on the concrete series [3, 1, 2]. -/
theorem latency_percentiles_linear_interpolation_witness :
    ([3, 1, 2] : List Rat) ≠ [] ∧
    latency_percentiles [3, 1, 2] =
      (quantileSpec [3, 1, 2] (1/2), quantileSpec [3, 1, 2] (9/10),
       quantileSpec [3, 1, 2] (19/20), quantileSpec [3, 1, 2] (99/100)) :=
  ⟨by decide, latency_percentiles_linear_interpolation [3, 1, 2] (by decide)⟩

/-! ### Claim theorems: field parsing -/

/-- C1 (counterexample): contrary to the claim, `parse_scores("a,b,c")` is not
the comma split `["a","b","c"]`; the delimiter-split fallback exists only in
`parse_tags`, while `parse_scores` recovers JSON decode failures as `[]`. -/
theorem parse_scores_no_comma_fallback :
    parse_scores (PyVal.str "a,b,c") ≠
      Except.ok (PyVal.list [PyVal.str "a", PyVal.str "b", PyVal.str "c"]) := by
  have h : parse_scores (PyVal.str "a,b,c") = Except.ok (PyVal.list []) := rfl
  rw [h]
  simp

/-- C1 (amended): `parse_tags` satisfies all five of the spec's parsing
equalities, including the comma-split fallback; `parse_scores` satisfies the
first four and maps the non-JSON string "a,b,c" to `[]` instead. -/
theorem tag_score_parsing_amended :
    parse_tags PyVal.none = Except.ok (PyVal.list []) ∧
    parse_tags (PyVal.str "") = Except.ok (PyVal.list []) ∧
    parse_tags (PyVal.str "[]") = Except.ok (PyVal.list []) ∧
    parse_tags (PyVal.str "[\x7b\"name\":\"x\"\x7d]") =
      Except.ok (PyVal.list [PyVal.dict [("name", PyVal.str "x")]]) ∧
    parse_tags (PyVal.str "a,b,c") =
      Except.ok (PyVal.list [PyVal.str "a", PyVal.str "b", PyVal.str "c"]) ∧
    parse_scores PyVal.none = Except.ok (PyVal.list []) ∧
    parse_scores (PyVal.str "") = Except.ok (PyVal.list []) ∧
    parse_scores (PyVal.str "[]") = Except.ok (PyVal.list []) ∧
    parse_scores (PyVal.str "[\x7b\"name\":\"x\"\x7d]") =
      Except.ok (PyVal.list [PyVal.dict [("name", PyVal.str "x")]]) ∧
    parse_scores (PyVal.str "a,b,c") = Except.ok (PyVal.list []) :=
  ⟨rfl, rfl, rfl, rfl, rfl, rfl, rfl, rfl, rfl, rfl⟩

/-- C2 (code bug): the parsers are not total on their documented input domain:
on an actual two-element Python list the `pd.isna(...)` truth test raises
ValueError before the `isinstance(..., list)` branch is reached, and a string
holding a JSON scalar is returned as that scalar rather than as a list. -/
theorem parse_bug_failing_inputs :
    parse_scores (PyVal.list [PyVal.str "a", PyVal.str "b"]) =
      Except.error "ValueError: The truth value of an array is ambiguous" ∧
    parse_tags (PyVal.list [PyVal.str "a", PyVal.str "b"]) =
      Except.error "ValueError: The truth value of an array is ambiguous" ∧
    parse_scores (PyVal.str "123") = Except.ok (PyVal.int 123) :=
  ⟨rfl, rfl, rfl⟩

/-! ### Claim theorems: cost/latency metrics -/

/-- C5: on the table of 3 questions with costs [0.001, 0.002, 0.0] and
latencies [1.0, 2.0, 0.0], the page's metrics are total cost 0.003, average
cost over non-zero entries 0.0015, and average latency over non-zero
entries 1.5. -/
theorem cost_kpis_scenario :
    cost_kpis [1/1000, 2/1000, 0] [1, 2, 0] =
      (3/1000, some (15/10000), 15/10) := by
  have hc : positives [1/1000, 2/1000, 0] = [1/1000, 2/1000] := by
    simp only [positives, List.filter]
    norm_num
  have hl : positives [1, 2, 0] = [1, 2] := by
    simp only [positives, List.filter]
    norm_num
  simp only [cost_kpis, hc, hl, meanQ]
  norm_num

/-! ### Claim theorems: theme state -/

/-- C9: the theme is initialized to 'light' when unset; the toggle maps
'light' to 'dark' and any other value to 'light'; its result is always a
valid theme; and toggling twice from a valid theme restores it. -/
theorem theme_toggle_invariant :
    init_theme Option.none = "light" ∧
    toggle_theme (some "light") = "dark" ∧
    (∀ t : String, t ≠ "light" → toggle_theme (some t) = "light") ∧
    (∀ s : Option String, toggle_theme s = "light" ∨ toggle_theme s = "dark") ∧
    (∀ t : String, t = "light" ∨ t = "dark" →
      toggle_theme (some (toggle_theme (some t))) = t) := by
  refine ⟨rfl, rfl, ?_, ?_, ?_⟩
  · intro t ht
    simp [toggle_theme, init_theme, ht]
  · intro s
    by_cases h : init_theme s = "light"
    · simp [toggle_theme, h]
    · simp [toggle_theme, h]
  · rintro t (rfl | rfl) <;> rfl

/-- Witness for C9 at the concrete theme 'dark'. -/
theorem theme_toggle_invariant_witness :
    toggle_theme (some "dark") = "light" ∧
    toggle_theme (some (toggle_theme (some "dark"))) = "dark" :=
  ⟨theme_toggle_invariant.2.2.1 "dark" (by decide),
   theme_toggle_invariant.2.2.2.2 "dark" (Or.inr rfl)⟩

/-! ### Claim theorems: histogram bin count -/

/-- For any coerced maximum, the `int(max)` step at the call-site arguments
either returns a value in [1, 30] or raises OverflowError, and it agrees with
the amended description `clampOfMax`. -/
theorem intOfMax_bounds_spec (m : PyNum) :
    (∀ b : Int, intOfMax m 30 = Except.ok b → 1 ≤ b ∧ b ≤ 30) ∧
    intOfMax m 30 = clampOfMax m := by
  match m with
  | PyNum.finite q =>
    have h : intOfMax (PyNum.finite q) 30 =
        Except.ok (if truncQ q < 1 then 1 else min 30 (truncQ q)) := rfl
    have h2 : clampOfMax (PyNum.finite q) =
        Except.ok (max 1 (min 30 (truncQ q))) := rfl
    rw [h, h2]
    constructor
    · intro b hb
      have hb2 := Except.ok.inj hb
      rcases lt_or_le (truncQ q) 1 with hq | hq
      · rw [if_pos hq] at hb2
        omega
      · rw [if_neg (not_lt.mpr hq)] at hb2
        omega
    · rcases lt_or_le (truncQ q) 1 with hq | hq
      · rw [if_pos hq]
        have hmax : max 1 (min 30 (truncQ q)) = 1 := by omega
        rw [hmax]
      · rw [if_neg (not_lt.mpr hq)]
        have hmax : max 1 (min 30 (truncQ q)) = min 30 (truncQ q) := by omega
        rw [hmax]
  | PyNum.posInf => exact ⟨fun b hb => (nomatch hb), rfl⟩
  | PyNum.negInf => exact ⟨fun b hb => (nomatch hb), rfl⟩

/-- On every numeric tail, `binsOf` at the call-site arguments either returns
a value in [1, 30] or raises OverflowError, and it agrees with the amended
description `binsSpec`. -/
theorem binsOf_ok_bounds_spec (nm : List PyNum) :
    (∀ b : Int, binsOf nm 10 30 = Except.ok b → 1 ≤ b ∧ b ≤ 30) ∧
    binsOf nm 10 30 = binsSpec nm := by
  match nm with
  | [] =>
    refine ⟨?_, rfl⟩
    intro b hb
    have hb2 : (10 : Int) = b := Except.ok.inj hb
    omega
  | x :: xs => exact intOfMax_bounds_spec (maxN x xs)

set_option maxRecDepth 8192 in
/-- C10 (counterexample): `safe_hist_bins` is not total: on the series
`["inf"]` (and on `["1e400"]`, whose value overflows the double range)
`pd.to_numeric(..., errors='coerce')` yields infinity, which `.dropna()`
keeps and `pd.isna` does not flag, so `int(max_value)` raises an
OverflowError that `except (TypeError, ValueError)` does not catch — no
integer in [1, 30] is returned. -/
theorem safe_hist_bins_overflow_counterexample :
    safe_hist_bins (some [PyVal.str "inf"]) 10 30 =
      Except.error "OverflowError: cannot convert float infinity to integer" ∧
    safe_hist_bins (some [PyVal.str "1e400"]) 10 30 =
      Except.error "OverflowError: cannot convert float infinity to integer" :=
  ⟨rfl, rfl⟩

/-- C10 (amended): whenever `safe_hist_bins` returns (with the call-site
arguments, default 10 and max 30), the result is an integer in [1, 30]; it
returns the default 10 when the series is `None`, empty, or has no numeric
values after coercion, returns `min(30, int(max))` clamped below by 1 when
the coerced maximum is finite, and raises an uncaught OverflowError when the
coerced maximum is an infinity. -/
theorem safe_hist_bins_bounded_or_overflow (series : Option (List PyVal)) :
    (∀ b : Int, safe_hist_bins series 10 30 = Except.ok b → 1 ≤ b ∧ b ≤ 30) ∧
    safe_hist_bins series 10 30 =
      (match series with
       | Option.none => Except.ok 10
       | some s => binsSpec (s.filterMap to_numericQ)) := by
  match series with
  | Option.none =>
    refine ⟨?_, rfl⟩
    intro b hb
    have hb2 : (10 : Int) = b := Except.ok.inj hb
    omega
  | some [] =>
    refine ⟨?_, rfl⟩
    intro b hb
    have hb2 : (10 : Int) = b := Except.ok.inj hb
    omega
  | some (a :: as) => exact binsOf_ok_bounds_spec ((a :: as).filterMap to_numericQ)

/-- Witness for C10 on a series with no numeric values: the bin count 10 is
returned and lies in [1, 30]. -/
theorem safe_hist_bins_bounded_or_overflow_witness :
    safe_hist_bins (some [PyVal.str "x"]) 10 30 = Except.ok 10 ∧
    (1 ≤ (10 : Int) ∧ (10 : Int) ≤ 30) :=
  ⟨rfl, (safe_hist_bins_bounded_or_overflow (some [PyVal.str "x"])).1 10 rfl⟩

/-! ### Claim theorems: the data-loader layer (modelled from the spec) -/

/-- C6: whenever the raw tables contain the primary questions table, the merge
succeeds and the MergedTable has exactly one row per primary row, whatever
secondary datasets are present or absent. -/
theorem merge_row_count_eq_primary (raw : RawData) (qs : List QuestionRow)
    (hq : raw.questions = some qs) :
    ∃ m, merge_data_for_dashboard raw = Except.ok m ∧ m.length = qs.length := by
  unfold merge_data_for_dashboard
  rw [hq]
  exact ⟨_, rfl, List.length_map qs _⟩

/-- Witness for C6: one primary row, no secondary tables present. -/
theorem merge_row_count_eq_primary_witness :
    ∃ m, merge_data_for_dashboard
        (RawData.mk (some [QuestionRow.mk "t1" "q" "topic" 0])
          Option.none Option.none Option.none) =
      Except.ok m ∧ m.length = 1 :=
  merge_row_count_eq_primary _ [QuestionRow.mk "t1" "q" "topic" 0] rfl

/-- C3: on a zero-row MergedTable with empty raw tables, every KPISet field is
zero or the `Option.none` "not available" sentinel (the function is total, so
no exception can arise). -/
theorem calculate_kpis_empty_tables (raw : RawData)
    (hgf : raw.general_feedback.getD [] = []) :
    calculate_kpis [] raw =
      KPISet.mk 0 0 Option.none Option.none Option.none 0 := by
  unfold calculate_kpis
  rw [hgf]
  rfl

/-- Witness for C3 at the fully-absent raw data. -/
theorem calculate_kpis_empty_tables_witness :
    (RawData.mk Option.none Option.none Option.none Option.none).general_feedback.getD
        [] = [] ∧
    calculate_kpis [] (RawData.mk Option.none Option.none Option.none Option.none) =
      KPISet.mk 0 0 Option.none Option.none Option.none 0 :=
  ⟨rfl, calculate_kpis_empty_tables _ rfl⟩

/-- C7: the KPI calculation is a pure function: as app.py runs it, it leaves
the MergedTable and raw tables unchanged, and a second run on the post-call
inputs yields the identical KPISet. -/
theorem calculate_kpis_idempotent_pure (df : List MergedRow) (raw : RawData) :
    (calculate_kpis_run df raw).2 = (df, raw) ∧
    (calculate_kpis_run ((calculate_kpis_run df raw).2.1)
        ((calculate_kpis_run df raw).2.2)).1 = (calculate_kpis_run df raw).1 :=
  ⟨rfl, rfl⟩

end Dashboard
